import Mathlib

/-!
Verification of the ipmi-fans control loop.

A shallow embedding of the decision logic in `src/ipmi-fans/src/main.rs`:
the temperature-to-duty fan curve (`fan_curve`), the drag-based rate
smoother, the band clamp, the five-entry circular rate history
(`RateHistory` with its `Rates` iterator), and the anomaly-detection /
reset-lockout logic of the main loop, modelled as a pure `tick` function
over an explicit state.

Machine integers are modelled as `Nat` (for `u8`/`u64` values) and `Int`
(for `i16`/`i32` values), with 32-bit two's-complement wrap-around made
explicit (`wrap32`) at every `i32` operation of `fan_curve` that can
overflow; Rust release builds wrap on overflow.
-/

set_option autoImplicit false

namespace IpmiFans

/-- Rust `const MAX_RATE: u8 = 100`. -/
def MAX_RATE : ℕ := 100

/-- Rust `const CURVE_START_LEVEL: u8 = 15`. -/
def CURVE_START_LEVEL : ℕ := 15

/-- Rust `const CURVE_END_LEVEL: u8 = MAX_RATE`. -/
def CURVE_END_LEVEL : ℕ := MAX_RATE

/-- Rust `const CURVE_START_TEMP: i32 = 35 * 1000` (local to `fan_curve`). -/
def CURVE_START_TEMP : ℤ := 35 * 1000

/-- Rust `const CURVE_END_TEMP: i32 = 65 * 1000` (local to `fan_curve`). -/
def CURVE_END_TEMP : ℤ := 65 * 1000

/-- Rust `const UP_DRAG: i16 = 4`. -/
def UP_DRAG : ℤ := 4

/-- Rust `const DOWN_DRAG: i16 = 8`. -/
def DOWN_DRAG : ℤ := 8

/-- The 32-bit two's-complement wrap-around: the value an `i32` holds after an
arithmetic operation whose mathematical result is `x` (Rust release-mode
overflow semantics). Identity on `[-2^31, 2^31 - 1]`. -/
def wrap32 (x : ℤ) : ℤ := (x + 2 ^ 31) % 2 ^ 32 - 2 ^ 31

/-- Rust `fn fan_curve(temp: i32) -> u8`: linear interpolation
`CURVE_START_LEVEL + (CURVE_END_LEVEL - CURVE_START_LEVEL) * (temp - CURVE_START_TEMP) / (CURVE_END_TEMP - CURVE_START_TEMP)`
computed in `i32` (each subtraction/multiplication wraps on overflow;
`/` is Rust `i32` division, truncating toward zero, `Int.tdiv`), then the
final `i32` value is clamped to `[0, 255]` before narrowing to `u8`. -/
def fan_curve (temp : ℤ) : ℕ :=
  let unclamped : ℤ :=
    wrap32 ((CURVE_START_LEVEL : ℤ) +
      Int.tdiv (wrap32 (((CURVE_END_LEVEL - CURVE_START_LEVEL : ℕ) : ℤ) *
          wrap32 (temp - CURVE_START_TEMP)))
        (CURVE_END_TEMP - CURVE_START_TEMP))
  if unclamped < 0 then 0
  else if unclamped > 255 then 255
  else unclamped.toNat

/-- The smoothing step of the main loop (`main`, the
`if let Some(last_rate) = history.rates().last()` block): with a previous
commanded rate `last_rate`, compute `diff = rate - last_rate` in `i16`
(exact over `ℤ` since both operands are `u8` values) and apply the
asymmetric drag; with no previous rate, pass the curved rate through.
`Int.toNat` models `u8::try_from(..).unwrap()`, whose argument is proved
to lie in `[0, 255]` separately. -/
def smoothStep (last? : Option ℕ) (rate : ℕ) : ℕ :=
  match last? with
  | some last_rate =>
    let diff : ℤ := (rate : ℤ) - (last_rate : ℤ)
    if diff > UP_DRAG then ((last_rate : ℤ) + diff - UP_DRAG).toNat
    else if diff < -DOWN_DRAG then ((last_rate : ℤ) + diff + DOWN_DRAG).toNat
    else last_rate
  | none => rate

/-- The final clamp of the main loop: the commanded rate is forced into
the operating band `[CURVE_START_LEVEL, CURVE_END_LEVEL]`. -/
def clampBand (rate : ℕ) : ℕ :=
  if rate < CURVE_START_LEVEL then CURVE_START_LEVEL
  else if rate > CURVE_END_LEVEL then CURVE_END_LEVEL
  else rate

/-- Index into the `[u8; 5]` backing array. In the Rust code all stored
indices are kept below `rates.len() = 5` by `% 5` updates, so reducing an
index modulo 5 at the point of access is the identity on every index the
program forms. -/
def idx (i : ℕ) : Fin 5 := ⟨i % 5, Nat.mod_lt _ (by norm_num)⟩

/-- Rust `struct RateHistory` with fields `rates: [u8; 5]`, `start: u8`, `len: u8`. -/
structure RateHistory where
  rates : Fin 5 → ℕ
  start : ℕ
  len : ℕ

namespace RateHistory

/-- Rust `RateHistory::default()`: zeroed array, `start = 0`, `len = 0`. -/
def empty : RateHistory := ⟨fun _ => 0, 0, 0⟩

/-- Rust `RateHistory::push`: when full, overwrite the slot at `start` and
advance `start` by one modulo 5; otherwise write at slot `len` and
increment `len`. -/
def push (h : RateHistory) (v : ℕ) : RateHistory :=
  if h.len = 5 then
    { rates := Function.update h.rates (idx h.start) v
      start := (h.start + 1) % 5
      len := h.len }
  else
    { rates := Function.update h.rates (idx h.len) v
      start := h.start
      len := h.len + 1 }

/-- Rust `RateHistory::full`: `len == rates.len()`. -/
def full (h : RateHistory) : Bool := h.len == 5

end RateHistory

/-- The `Rates` iterator collected into a list: starting at `index`, read
`len` consecutive slots, wrapping modulo 5 (`next` reads
`rates[index]`, decrements `len` and sets `index = (index + 1) % 5`). -/
def ratesFrom (rates : Fin 5 → ℕ) (index : ℕ) : ℕ → List ℕ
  | 0 => []
  | n + 1 => rates (idx index) :: ratesFrom rates (index + 1) n

/-- Rust `RateHistory::rates()` collected into a list, oldest to newest. -/
def RateHistory.ratesList (h : RateHistory) : List ℕ :=
  ratesFrom h.rates h.start h.len

/-- Convenience for repeated pushes: push every element of a list
in order (models a sequence of `history.push(v)` calls). -/
def pushAll (h : RateHistory) (vs : List ℕ) : RateHistory :=
  vs.foldl RateHistory.push h

/-- The anomaly condition of the main loop:
`(history.rates().min().unwrap() > 80 && *actual_speed.iter().max().unwrap() < 10_000) || (history.rates().max().unwrap() < 50 && *actual_speed.iter().min().unwrap() > 10_000)`.
The `.unwrap()`s are modelled by `Option.getD 0`; they are only evaluated
with a full (hence non-empty) history and the 8-entry speed array. -/
def anomalyTrigger (hist : List ℕ) (speeds : List ℕ) : Bool :=
  (decide (80 < (hist.min?.getD 0)) && decide ((speeds.max?.getD 0) < 10000))
    || (decide ((hist.max?.getD 0) < 50) && decide (10000 < (speeds.min?.getD 0)))

/-- The loop-carried state of `main`: the rate history and the
`reset_lockout: u8` counter. -/
structure ControlState where
  history : RateHistory
  lockout : ℕ

/-- What one loop iteration emits: the `set_fan_duty` calls (zone, duty),
the commanded duty itself, and whether `reset_bmc` was requested. -/
structure TickOutput where
  commands : List (ℕ × ℕ)
  duty : ℕ
  reset : Bool

/-- One iteration of the `loop` in `main`, as a pure function of the
state and this tick's external readings. `temp? = none` models a failed
`read_temperature()` (the code substitutes rate 255); `speeds? = none`
models a failed `read_fan_speed()` (the code substitutes `[0u64; 8]`).
The smoother reads `history.rates().last()` before the push; the anomaly
check runs on the pushed history when it is full and the lockout is zero;
`reset_lockout.saturating_sub(1)` ends the tick (`Nat` subtraction). -/
def tick (s : ControlState) (temp? : Option ℤ) (speeds? : Option (List ℕ)) :
    ControlState × TickOutput :=
  let rate0 : ℕ := match temp? with
    | some t => fan_curve t
    | none => 255
  let rate1 : ℕ := smoothStep s.history.ratesList.getLast? rate0
  let rate : ℕ := clampBand rate1
  let history : RateHistory := s.history.push rate
  let step : Bool × ℕ :=
    if history.full && (s.lockout == 0) then
      let actual_speed : List ℕ := speeds?.getD (List.replicate 8 0)
      if anomalyTrigger history.ratesList actual_speed then (true, 15)
      else (false, s.lockout)
    else (false, s.lockout)
  (⟨history, step.2 - 1⟩, ⟨[(0, rate), (1, rate)], rate, step.1⟩)

/-! ## Basic lemmas -/

theorem wrap32_id (x : ℤ) (h1 : -(2 ^ 31) ≤ x) (h2 : x < 2 ^ 31) : wrap32 x = x := by
  unfold wrap32
  omega

theorem tdiv_mono_30000 (a b : ℤ) (ha : 0 ≤ a) (hab : a ≤ b) :
    Int.tdiv a 30000 ≤ Int.tdiv b 30000 := by
  rw [Int.tdiv_eq_ediv ha (by norm_num), Int.tdiv_eq_ediv (le_trans ha hab) (by norm_num)]
  exact Int.ediv_le_ediv (by norm_num) hab

theorem tdiv_30000_bounds (a : ℤ) (ha : 0 ≤ a) (hb : a ≤ 2550000) :
    0 ≤ Int.tdiv a 30000 ∧ Int.tdiv a 30000 ≤ 85 := by
  refine ⟨Int.tdiv_nonneg ha (by norm_num), ?_⟩
  have h := tdiv_mono_30000 a 2550000 ha hb
  have he : Int.tdiv 2550000 30000 = 85 := by decide
  omega

theorem tdiv_30000_i32 (a : ℤ) (h1 : -(2 ^ 31) ≤ a) (h2 : a < 2 ^ 31) :
    -71582 ≤ Int.tdiv a 30000 ∧ Int.tdiv a 30000 ≤ 71582 := by
  rcases le_or_lt 0 a with hpos | hneg
  · have hm := tdiv_mono_30000 a (2 ^ 31) hpos (by omega)
    have hn := Int.tdiv_nonneg hpos (show (0 : ℤ) ≤ 30000 by norm_num)
    have he : Int.tdiv (2 ^ 31) 30000 = 71582 := by decide
    omega
  · have hng : Int.tdiv (-a) 30000 = -Int.tdiv a 30000 := Int.neg_tdiv a 30000
    have hm := tdiv_mono_30000 (-a) (2 ^ 31) (by omega) (by omega)
    have hn := Int.tdiv_nonneg (show (0 : ℤ) ≤ -a by omega) (show (0 : ℤ) ≤ 30000 by norm_num)
    have he : Int.tdiv (2 ^ 31) 30000 = 71582 := by decide
    omega

theorem clampBand_le (r : ℕ) :
    CURVE_START_LEVEL ≤ clampBand r ∧ clampBand r ≤ CURVE_END_LEVEL := by
  unfold clampBand CURVE_START_LEVEL CURVE_END_LEVEL MAX_RATE
  split
  · omega
  · split <;> omega

/-- With a failed temperature read the loop feeds rate 255 into the
smoother; whatever the previous rate, the clamped result is 100. -/
theorem clampBand_smoothStep_255 (o : Option ℕ) : clampBand (smoothStep o 255) = 100 := by
  unfold smoothStep clampBand UP_DRAG DOWN_DRAG CURVE_START_LEVEL CURVE_END_LEVEL MAX_RATE
  match o with
  | none => norm_num
  | some P =>
    dsimp only
    repeat' split
    all_goals omega

theorem tick_history (s : ControlState) (temp? : Option ℤ) (speeds? : Option (List ℕ)) :
    (tick s temp? speeds?).1.history = s.history.push ((tick s temp? speeds?).2.duty) := rfl

theorem tick_commands (s : ControlState) (temp? : Option ℤ) (speeds? : Option (List ℕ)) :
    (tick s temp? speeds?).2.commands =
      [(0, (tick s temp? speeds?).2.duty), (1, (tick s temp? speeds?).2.duty)] := rfl

theorem tick_duty (s : ControlState) (temp? : Option ℤ) (speeds? : Option (List ℕ)) :
    (tick s temp? speeds?).2.duty =
      clampBand (smoothStep s.history.ratesList.getLast?
        (match temp? with | some t => fan_curve t | none => 255)) := rfl

/-! ## The ring buffer's iterator -/

theorem idx_eq_idx (i j : ℕ) (h : i % 5 = j % 5) : idx i = idx j := by
  unfold idx
  exact Fin.ext h

theorem idx_ne_idx (i j : ℕ) (h : i % 5 ≠ j % 5) : idx i ≠ idx j := by
  intro hc
  exact h (congrArg Fin.val hc)

theorem ratesFrom_length (f : Fin 5 → ℕ) (i n : ℕ) : (ratesFrom f i n).length = n := by
  induction n generalizing i with
  | zero => rfl
  | succ n ih => simp [ratesFrom, ih]

theorem ratesFrom_congr_mod (f : Fin 5 → ℕ) (i j n : ℕ) (h : i % 5 = j % 5) :
    ratesFrom f i n = ratesFrom f j n := by
  induction n generalizing i j with
  | zero => rfl
  | succ n ih =>
    simp only [ratesFrom]
    rw [idx_eq_idx i j h, ih (i + 1) (j + 1) (by omega)]

theorem ratesFrom_succ (f : Fin 5 → ℕ) (i n : ℕ) :
    ratesFrom f i (n + 1) = ratesFrom f i n ++ [f (idx (i + n))] := by
  induction n generalizing i with
  | zero => simp [ratesFrom]
  | succ n ih =>
    calc ratesFrom f i (n + 1 + 1)
        = f (idx i) :: ratesFrom f (i + 1) (n + 1) := rfl
      _ = f (idx i) :: (ratesFrom f (i + 1) n ++ [f (idx (i + 1 + n))]) := by rw [ih (i + 1)]
      _ = (f (idx i) :: ratesFrom f (i + 1) n) ++ [f (idx (i + (n + 1)))] := by
          rw [show i + 1 + n = i + (n + 1) by omega]; rfl
      _ = ratesFrom f i (n + 1) ++ [f (idx (i + (n + 1)))] := rfl

theorem ratesFrom_update_of_notin (f : Fin 5 → ℕ) (j v i n : ℕ)
    (hout : ∀ k, k < n → (i + k) % 5 ≠ j % 5) :
    ratesFrom (Function.update f (idx j) v) i n = ratesFrom f i n := by
  induction n generalizing i with
  | zero => rfl
  | succ n ih =>
    simp only [ratesFrom]
    rw [Function.update_noteq (idx_ne_idx i j (by simpa using hout 0 (by omega)))]
    rw [ih (i + 1) (fun k hk => by
      rw [show i + 1 + k = i + (k + 1) by omega]
      exact hout (k + 1) (by omega))]

/-- The invariant of reachable `RateHistory` values: the length never
exceeds the capacity, and until the buffer first fills, `start` is 0
(`push` writes at index `len` in the not-full branch, which is the next
logical slot only while nothing has been evicted). -/
def RateHistory.Inv (h : RateHistory) : Prop :=
  h.len ≤ 5 ∧ (h.len < 5 → h.start = 0)

theorem inv_empty : RateHistory.empty.Inv := by
  constructor <;> simp [RateHistory.empty]

/-- After any `push`, the newest element is the last one the iterator
yields. -/
theorem getLast?_push (h : RateHistory) (v : ℕ) (hinv : h.Inv) :
    (h.push v).ratesList.getLast? = some v := by
  obtain ⟨hlen, hstart⟩ := hinv
  unfold RateHistory.push
  by_cases hfull : h.len = 5
  · rw [if_pos hfull]
    unfold RateHistory.ratesList
    dsimp only
    rw [hfull]
    rw [ratesFrom_congr_mod _ ((h.start + 1) % 5) (h.start + 1) 5 (by omega)]
    have g := ratesFrom_succ (Function.update h.rates (idx h.start) v) (h.start + 1) 4
    rw [show (4 : ℕ) + 1 = 5 by norm_num] at g
    rw [g]
    rw [idx_eq_idx (h.start + 1 + 4) h.start (by omega), Function.update_same]
    exact List.getLast?_concat _
  · rw [if_neg hfull]
    unfold RateHistory.ratesList
    dsimp only
    rw [ratesFrom_succ, hstart (by omega)]
    rw [ratesFrom_update_of_notin _ _ _ _ _ (fun k hk => by omega)]
    rw [idx_eq_idx (0 + h.len) h.len (by omega), Function.update_same]
    exact List.getLast?_concat _

/-- Pushing into a full buffer evicts the oldest element: the iterator
afterwards yields the old tail followed by the new element. -/
theorem push_ratesList_full (h : RateHistory) (v : ℕ) (hfull : h.len = 5) :
    (h.push v).ratesList = h.ratesList.tail ++ [v] ∧ (h.push v).len = 5 := by
  constructor
  · unfold RateHistory.push
    rw [if_pos hfull]
    unfold RateHistory.ratesList
    dsimp only
    rw [hfull]
    rw [ratesFrom_congr_mod _ ((h.start + 1) % 5) (h.start + 1) 5 (by omega)]
    have g := ratesFrom_succ (Function.update h.rates (idx h.start) v) (h.start + 1) 4
    rw [show (4 : ℕ) + 1 = 5 by norm_num] at g
    rw [g]
    rw [idx_eq_idx (h.start + 1 + 4) h.start (by omega), Function.update_same]
    rw [ratesFrom_update_of_notin _ _ _ _ _ (fun k hk => by omega)]
    have unf : ratesFrom h.rates h.start 5 =
        h.rates (idx h.start) :: ratesFrom h.rates (h.start + 1) 4 := rfl
    rw [unf]
    rfl
  · unfold RateHistory.push
    rw [if_pos hfull]
    exact hfull

/-- Pushing into a not-yet-full buffer (necessarily still at `start = 0`)
appends the new element. -/
theorem push_ratesList_notfull (h : RateHistory) (v : ℕ) (hlen : h.len < 5)
    (hstart : h.start = 0) :
    (h.push v).ratesList = h.ratesList ++ [v] ∧
      (h.push v).len = h.len + 1 ∧ (h.push v).start = 0 := by
  refine ⟨?_, ?_, ?_⟩
  · unfold RateHistory.push
    rw [if_neg (by omega)]
    unfold RateHistory.ratesList
    dsimp only
    rw [ratesFrom_succ, hstart]
    rw [ratesFrom_update_of_notin _ _ _ _ _ (fun k hk => by omega)]
    rw [idx_eq_idx (0 + h.len) h.len (by omega), Function.update_same]
  · unfold RateHistory.push
    rw [if_neg (by omega)]
  · unfold RateHistory.push
    rw [if_neg (by omega)]
    exact hstart

/-- Characterization of a `RateHistory` built by pushing a list of values
into the empty buffer: the invariant holds, the occupancy is
`min (number of pushes) 5`, and the iterator yields exactly the last
(at most) five pushed values, oldest first. -/
theorem pushAll_char (vs : List ℕ) :
    (pushAll RateHistory.empty vs).Inv ∧
    (pushAll RateHistory.empty vs).len = min vs.length 5 ∧
    (pushAll RateHistory.empty vs).ratesList = vs.drop (vs.length - 5) := by
  induction vs using List.reverseRecOn with
  | nil =>
    refine ⟨⟨by norm_num [pushAll, RateHistory.empty], by norm_num [pushAll, RateHistory.empty]⟩,
      by norm_num [pushAll, RateHistory.empty], ?_⟩
    norm_num [pushAll, RateHistory.empty, RateHistory.ratesList, ratesFrom]
  | append_singleton vs v ih =>
    obtain ⟨⟨hle, hst⟩, hlen, hlist⟩ := ih
    have hps : pushAll RateHistory.empty (vs ++ [v]) = (pushAll RateHistory.empty vs).push v := by
      simp [pushAll]
    by_cases hfull : (pushAll RateHistory.empty vs).len = 5
    · obtain ⟨e1, e2⟩ := push_ratesList_full _ v hfull
      have hv5 : 5 ≤ vs.length := by omega
      refine ⟨⟨by rw [hps, e2], fun hlt => by rw [hps, e2] at hlt; omega⟩, ?_, ?_⟩
      · rw [hps, e2]
        simp only [List.length_append, List.length_singleton]
        omega
      · rw [hps, e1, hlist]
        simp only [List.length_append, List.length_singleton]
        rw [List.tail_drop]
        rw [List.drop_append_eq_append_drop]
        rw [show vs.length - 5 + 1 = vs.length + 1 - 5 by omega]
        rw [show vs.length + 1 - 5 - vs.length = 0 by omega]
        rfl
    · have hlt : (pushAll RateHistory.empty vs).len < 5 := by omega
      obtain ⟨e1, e2, e3⟩ := push_ratesList_notfull _ v hlt (hst hlt)
      have hvlt : vs.length < 5 := by omega
      refine ⟨⟨by rw [hps, e2]; omega, fun _ => by rw [hps]; exact e3⟩, ?_, ?_⟩
      · rw [hps, e2, hlen]
        simp only [List.length_append, List.length_singleton]
        omega
      · rw [hps, e1, hlist]
        rw [show vs.length - 5 = 0 by omega]
        simp only [List.length_append, List.length_singleton]
        rw [show vs.length + 1 - 5 = 0 by omega]
        simp

theorem anomalyTrigger_iff (hist speeds : List ℕ) :
    anomalyTrigger hist speeds = true ↔
      (80 < hist.min?.getD 0 ∧ speeds.max?.getD 0 < 10000) ∨
      (hist.max?.getD 0 < 50 ∧ 10000 < speeds.min?.getD 0) := by
  simp [anomalyTrigger]

theorem tick_reset (s : ControlState) (temp? : Option ℤ) (speeds? : Option (List ℕ)) :
    (tick s temp? speeds?).2.reset =
      ((tick s temp? speeds?).1.history.full && (s.lockout == 0) &&
        anomalyTrigger (tick s temp? speeds?).1.history.ratesList
          (speeds?.getD (List.replicate 8 0))) := by
  dsimp only [tick]
  split
  next h =>
    split
    next h2 => simp_all
    next h2 => simp_all
  next h => simp_all

theorem tick_lockout (s : ControlState) (temp? : Option ℤ) (speeds? : Option (List ℕ)) :
    (tick s temp? speeds?).1.lockout =
      (if (tick s temp? speeds?).2.reset = true then 15 else s.lockout) - 1 := by
  dsimp only [tick]
  split
  next h =>
    split
    next h2 => simp_all
    next h2 => simp_all
  next h => simp_all

/-! ## Claims -/

/-- **C6**: pushing `v1..vk` into an empty `RateHistory` and iterating
yields exactly `v1..vk` when `k ≤ 5`; after six pushes the oldest value
is evicted and iteration yields `v2..v6`; `full()` is false for `k < 5`
and true for `k ≥ 5`; the buffer never holds more than 5 entries. -/
theorem rateHistory_fifo (vs : List ℕ) :
    (vs.length ≤ 5 → (pushAll RateHistory.empty vs).ratesList = vs) ∧
    (vs.length = 6 → (pushAll RateHistory.empty vs).ratesList = vs.drop 1) ∧
    ((pushAll RateHistory.empty vs).full = true ↔ 5 ≤ vs.length) ∧
    (pushAll RateHistory.empty vs).ratesList.length ≤ 5 := by
  obtain ⟨-, hlen, hlist⟩ := pushAll_char vs
  refine ⟨?_, ?_, ?_, ?_⟩
  · intro hk
    rw [hlist, show vs.length - 5 = 0 by omega]
    rfl
  · intro hk
    rw [hlist, hk]
  · simp only [RateHistory.full, beq_iff_eq, hlen]
    omega
  · unfold RateHistory.ratesList
    rw [ratesFrom_length, hlen]
    omega

/-- Witness for C6 at concrete push sequences. -/
theorem rateHistory_fifo_witness :
    (pushAll RateHistory.empty [1, 2, 3]).ratesList = [1, 2, 3] ∧
    (pushAll RateHistory.empty [1, 2, 3, 4, 5, 6]).ratesList = [2, 3, 4, 5, 6] ∧
    (pushAll RateHistory.empty [1, 2, 3, 4, 5]).full = true :=
  ⟨(rateHistory_fifo [1, 2, 3]).1 (by norm_num),
   (rateHistory_fifo [1, 2, 3, 4, 5, 6]).2.1 (by norm_num),
   (rateHistory_fifo [1, 2, 3, 4, 5]).2.2.1.mpr (by norm_num)⟩

/-- **C5**: with a previous rate (history non-empty) and
`diff = target - previous` in a signed type: if `diff > UP_DRAG` the
smoothed duty (before the band clamp) is `previous + diff - UP_DRAG`; if
`diff < -DOWN_DRAG` it is `previous + diff + DOWN_DRAG`; otherwise it is
the previous duty unchanged. With no previous rate the smoothed duty is
the curved target unmodified. -/
theorem smoothStep_cases (P X : ℕ) :
    ((X : ℤ) - (P : ℤ) > UP_DRAG →
      (smoothStep (some P) X : ℤ) = (P : ℤ) + ((X : ℤ) - (P : ℤ)) - UP_DRAG) ∧
    ((X : ℤ) - (P : ℤ) < -DOWN_DRAG →
      (smoothStep (some P) X : ℤ) = (P : ℤ) + ((X : ℤ) - (P : ℤ)) + DOWN_DRAG) ∧
    (-DOWN_DRAG ≤ (X : ℤ) - (P : ℤ) → (X : ℤ) - (P : ℤ) ≤ UP_DRAG →
      smoothStep (some P) X = P) ∧
    smoothStep none X = X := by
  unfold smoothStep UP_DRAG DOWN_DRAG
  dsimp only
  refine ⟨fun h1 => ?_, fun h1 => ?_, fun h1 h2 => ?_, rfl⟩ <;>
    · repeat' split
      all_goals omega

/-- Witness for C5: each branch of the smoother at concrete inputs. -/
theorem smoothStep_cases_witness :
    (smoothStep (some 15) 100 : ℤ) = (15 : ℤ) + ((100 : ℤ) - 15) - UP_DRAG ∧
    (smoothStep (some 100) 15 : ℤ) = (100 : ℤ) + ((15 : ℤ) - 100) + DOWN_DRAG ∧
    smoothStep (some 100) 98 = 100 ∧
    smoothStep none 42 = 42 :=
  ⟨(smoothStep_cases 15 100).1 (by decide),
   (smoothStep_cases 100 15).2.1 (by decide),
   (smoothStep_cases 100 98).2.2.1 (by decide) (by decide),
   (smoothStep_cases 100 42).2.2.2⟩

/-- **C10**: the `u8::try_from(..).unwrap()` narrowings in the smoothing
step cannot panic: for previous and target duties in `[0, 255]`, the value
narrowed in the `diff > UP_DRAG` branch and the value narrowed in the
`diff < -DOWN_DRAG` branch both lie in `[0, 255]`. -/
theorem narrow_no_panic (P X : ℕ) (hP : P ≤ 255) (hX : X ≤ 255) :
    ((X : ℤ) - (P : ℤ) > UP_DRAG →
      0 ≤ (P : ℤ) + ((X : ℤ) - (P : ℤ)) - UP_DRAG ∧
        (P : ℤ) + ((X : ℤ) - (P : ℤ)) - UP_DRAG ≤ 255) ∧
    ((X : ℤ) - (P : ℤ) < -DOWN_DRAG →
      0 ≤ (P : ℤ) + ((X : ℤ) - (P : ℤ)) + DOWN_DRAG ∧
        (P : ℤ) + ((X : ℤ) - (P : ℤ)) + DOWN_DRAG ≤ 255) := by
  unfold UP_DRAG DOWN_DRAG
  omega

/-- Witness for C10 at previous duty 15, target duty 100. -/
theorem narrow_no_panic_witness :
    (((100 : ℕ) : ℤ) - ((15 : ℕ) : ℤ) > UP_DRAG →
      0 ≤ ((15 : ℕ) : ℤ) + (((100 : ℕ) : ℤ) - ((15 : ℕ) : ℤ)) - UP_DRAG ∧
        ((15 : ℕ) : ℤ) + (((100 : ℕ) : ℤ) - ((15 : ℕ) : ℤ)) - UP_DRAG ≤ 255) ∧
    (((100 : ℕ) : ℤ) - ((15 : ℕ) : ℤ) < -DOWN_DRAG →
      0 ≤ ((15 : ℕ) : ℤ) + (((100 : ℕ) : ℤ) - ((15 : ℕ) : ℤ)) + DOWN_DRAG ∧
        ((15 : ℕ) : ℤ) + (((100 : ℕ) : ℤ) - ((15 : ℕ) : ℤ)) + DOWN_DRAG ≤ 255) :=
  narrow_no_panic 15 100 (by norm_num) (by norm_num)

/-- **C2** counterexample: with previous duty 15 in the history and the
temperature jumping to the curve end (65 000 m°C, curved target 100), the
commanded duty this tick is 96, far above `previous + UP_DRAG = 19`: the
smoother is a leaky rate limiter, not a `±drag` step bound around the
previous value. -/
theorem smoother_bound_cex :
    (tick ⟨RateHistory.empty.push 15, 0⟩ (some 65000) none).2.duty = 96 ∧
    ¬(((tick ⟨RateHistory.empty.push 15, 0⟩ (some 65000) none).2.duty : ℤ) ≤ 15 + UP_DRAG) := by
  constructor
  · decide
  · decide

/-- **C2** amended: when history is non-empty the smoothed result `R` for
target `X` satisfies `X - UP_DRAG ≤ R ≤ X + DOWN_DRAG` — it is within
drag of the *target*, not of the previous value; in scenario 2 (previous
duty 15, curved target 100) the first tick's commanded duty is
`100 - UP_DRAG = 96`, not 100 and not a 4-point step. -/
theorem smoother_bound_amended (P X : ℕ) :
    ((X : ℤ) - UP_DRAG ≤ (smoothStep (some P) X : ℤ) ∧
      (smoothStep (some P) X : ℤ) ≤ (X : ℤ) + DOWN_DRAG) ∧
    clampBand (smoothStep (some 15) 100) = 96 := by
  refine ⟨⟨?_, ?_⟩, by decide⟩ <;>
    · unfold smoothStep UP_DRAG DOWN_DRAG
      dsimp only
      repeat' split
      all_goals omega

/-- **C1** counterexample: on a tick whose temperature read fails, the
loop does *not* command duty 255: starting from the empty history it
commands 100 to both zones (the substituted 255 still passes through the
smoother and the band clamp). -/
theorem failsafe_cex :
    (tick ⟨RateHistory.empty, 0⟩ none none).2.duty = 100 ∧
    (tick ⟨RateHistory.empty, 0⟩ none none).2.commands = [(0, 100), (1, 100)] ∧
    (tick ⟨RateHistory.empty, 0⟩ none none).2.duty ≠ 255 := by
  refine ⟨by decide, by decide, by decide⟩

/-- **C1** amended: on a temperature-read failure the loop substitutes
*target* 255, but the smoother and the band clamp are not bypassed: the
duty commanded to both zones that tick is `CURVE_END_LEVEL = 100`, and
the value recorded as "previous" for the next tick is 100, not 255. -/
theorem failsafe_amended (s : ControlState) (speeds? : Option (List ℕ))
    (hinv : s.history.Inv) :
    (tick s none speeds?).2.duty = CURVE_END_LEVEL ∧
    (tick s none speeds?).2.commands = [(0, CURVE_END_LEVEL), (1, CURVE_END_LEVEL)] ∧
    (tick s none speeds?).1.history.ratesList.getLast? = some CURVE_END_LEVEL := by
  have hd : (tick s none speeds?).2.duty = 100 := by
    rw [tick_duty]
    exact clampBand_smoothStep_255 _
  refine ⟨?_, ?_, ?_⟩
  · rw [hd]; rfl
  · rw [tick_commands, hd]; rfl
  · rw [tick_history, hd]
    rw [getLast?_push s.history 100 hinv]
    rfl

/-- Witness for the amended C1 at the initial state. -/
theorem failsafe_amended_witness :
    (tick ⟨RateHistory.empty, 0⟩ none none).2.duty = CURVE_END_LEVEL ∧
    (tick ⟨RateHistory.empty, 0⟩ none none).2.commands =
      [(0, CURVE_END_LEVEL), (1, CURVE_END_LEVEL)] ∧
    (tick ⟨RateHistory.empty, 0⟩ none none).1.history.ratesList.getLast? =
      some CURVE_END_LEVEL :=
  failsafe_amended ⟨RateHistory.empty, 0⟩ none inv_empty

/-- **C4**: on every tick whose temperature read succeeds, the duty passed
to `set_fan_duty` for both zones and the value appended to the history is
the same clamped rate, inside `[CURVE_START_LEVEL, CURVE_END_LEVEL] = [15, 100]`. -/
theorem duty_in_band (s : ControlState) (temp? : Option ℤ) (speeds? : Option (List ℕ))
    (t : ℤ) (ht : temp? = some t) :
    CURVE_START_LEVEL ≤ (tick s temp? speeds?).2.duty ∧
    (tick s temp? speeds?).2.duty ≤ CURVE_END_LEVEL ∧
    (tick s temp? speeds?).2.commands =
      [(0, (tick s temp? speeds?).2.duty), (1, (tick s temp? speeds?).2.duty)] ∧
    (tick s temp? speeds?).1.history = s.history.push ((tick s temp? speeds?).2.duty) := by
  refine ⟨?_, ?_, tick_commands s temp? speeds?, tick_history s temp? speeds?⟩
  · rw [tick_duty]
    exact (clampBand_le _).1
  · rw [tick_duty]
    exact (clampBand_le _).2

/-- Witness for C4 at a concrete mid-curve tick. -/
theorem duty_in_band_witness :
    CURVE_START_LEVEL ≤ (tick ⟨RateHistory.empty, 0⟩ (some 50000) none).2.duty ∧
    (tick ⟨RateHistory.empty, 0⟩ (some 50000) none).2.duty ≤ CURVE_END_LEVEL ∧
    (tick ⟨RateHistory.empty, 0⟩ (some 50000) none).2.commands =
      [(0, (tick ⟨RateHistory.empty, 0⟩ (some 50000) none).2.duty),
       (1, (tick ⟨RateHistory.empty, 0⟩ (some 50000) none).2.duty)] ∧
    (tick ⟨RateHistory.empty, 0⟩ (some 50000) none).1.history =
      RateHistory.empty.push ((tick ⟨RateHistory.empty, 0⟩ (some 50000) none).2.duty) :=
  duty_in_band ⟨RateHistory.empty, 0⟩ (some 50000) none 50000 rfl

/-- Between the calibration points no intermediate overflows and the
final clamp is inactive: `fan_curve` is exactly the interpolation
formula. -/
theorem fan_curve_in_range (t : ℤ) (h1 : 35000 ≤ t) (h2 : t ≤ 65000) :
    (fan_curve t : ℤ) = 15 + Int.tdiv (85 * (t - 35000)) 30000 := by
  unfold fan_curve CURVE_START_TEMP CURVE_END_TEMP CURVE_START_LEVEL CURVE_END_LEVEL MAX_RATE
  norm_num
  rw [wrap32_id (t - 35000) (by omega) (by omega)]
  rw [wrap32_id (85 * (t - 35000)) (by omega) (by omega)]
  obtain ⟨hq0, hq85⟩ := tdiv_30000_bounds (85 * (t - 35000)) (by omega) (by omega)
  rw [wrap32_id (15 + Int.tdiv (85 * (t - 35000)) 30000) (by omega) (by omega)]
  rw [if_neg (by omega), if_neg (by omega)]
  omega

/-- **C7**: `fan_curve` is a pure total function mapping the curve start
temperature to the floor duty and the curve end temperature to the
ceiling duty, monotone non-decreasing between the calibration points, and
equal there to the linear formula
`L0 + (L1 - L0) * (temp - T0) / (T1 - T0)` with truncating division. -/
theorem fan_curve_spec :
    fan_curve CURVE_START_TEMP = CURVE_START_LEVEL ∧
    fan_curve CURVE_END_TEMP = CURVE_END_LEVEL ∧
    (∀ a b : ℤ, CURVE_START_TEMP ≤ a → a ≤ b → b ≤ CURVE_END_TEMP →
      fan_curve a ≤ fan_curve b) ∧
    (∀ t : ℤ, CURVE_START_TEMP ≤ t → t ≤ CURVE_END_TEMP →
      (fan_curve t : ℤ) = (CURVE_START_LEVEL : ℤ) +
        Int.tdiv (((CURVE_END_LEVEL - CURVE_START_LEVEL : ℕ) : ℤ) * (t - CURVE_START_TEMP))
          (CURVE_END_TEMP - CURVE_START_TEMP)) := by
  have hT0 : CURVE_START_TEMP = 35000 := by norm_num [CURVE_START_TEMP]
  have hT1 : CURVE_END_TEMP = 65000 := by norm_num [CURVE_END_TEMP]
  refine ⟨by decide, by decide, ?_, ?_⟩
  · intro a b ha hab hb
    rw [hT0] at ha
    rw [hT1] at hb
    have ea := fan_curve_in_range a ha (by omega)
    have eb := fan_curve_in_range b (by omega) hb
    have hm := tdiv_mono_30000 (85 * (a - 35000)) (85 * (b - 35000)) (by omega) (by omega)
    have : (fan_curve a : ℤ) ≤ (fan_curve b : ℤ) := by
      rw [ea, eb]
      omega
    exact_mod_cast this
  · intro t ht1 ht2
    rw [hT0] at ht1
    rw [hT1] at ht2
    have e := fan_curve_in_range t ht1 ht2
    simp only [CURVE_START_LEVEL, CURVE_END_LEVEL, MAX_RATE, CURVE_START_TEMP, CURVE_END_TEMP]
    norm_num
    exact e

/-- Witness for C7: monotonicity and the formula at mid-curve points. -/
theorem fan_curve_spec_witness :
    fan_curve 40000 ≤ fan_curve 50000 ∧
    (fan_curve 50000 : ℤ) = (CURVE_START_LEVEL : ℤ) +
      Int.tdiv (((CURVE_END_LEVEL - CURVE_START_LEVEL : ℕ) : ℤ) * ((50000 : ℤ) - CURVE_START_TEMP))
        (CURVE_END_TEMP - CURVE_START_TEMP) :=
  ⟨fan_curve_spec.2.2.1 40000 50000 (by decide) (by decide) (by decide),
   fan_curve_spec.2.2.2 50000 (by decide) (by decide)⟩

/-- **C8** counterexample: `fan_curve` computes its intermediate product
in `i32`, the same width as the input; at 30 000 000 m°C the product
`85 * (temp - 35000)` exceeds `2^31 - 1`, the `i32` multiplication wraps,
and the result is 0 — not a saturation at 255. -/
theorem fan_curve_overflow_cex :
    fan_curve 30000000 = 0 ∧
    fan_curve 30000000 ≠ 255 ∧
    ¬(((CURVE_END_LEVEL - CURVE_START_LEVEL : ℕ) : ℤ) * ((30000000 : ℤ) - CURVE_START_TEMP) < 2 ^ 31) := by
  refine ⟨by decide, by decide, by decide⟩

/-- **C8** amended: the final value of `fan_curve` is always clamped into
`[0, 255]` before narrowing (the narrowing itself never wraps), and
whenever the `i32` intermediates `temp - T0` and `(L1 - L0) * (temp - T0)`
do not overflow, the result is exactly the formula saturated into
`[0, 255]`; for inputs whose intermediate product overflows `i32` the
multiplication wraps (see the counterexample). -/
theorem fan_curve_amended (t : ℤ) :
    fan_curve t ≤ 255 ∧
    (-(2 ^ 31) ≤ t - CURVE_START_TEMP → t - CURVE_START_TEMP < 2 ^ 31 →
      -(2 ^ 31) ≤ ((CURVE_END_LEVEL - CURVE_START_LEVEL : ℕ) : ℤ) * (t - CURVE_START_TEMP) →
      ((CURVE_END_LEVEL - CURVE_START_LEVEL : ℕ) : ℤ) * (t - CURVE_START_TEMP) < 2 ^ 31 →
      (fan_curve t : ℤ) =
        max 0 (min 255 ((CURVE_START_LEVEL : ℤ) +
          Int.tdiv (((CURVE_END_LEVEL - CURVE_START_LEVEL : ℕ) : ℤ) * (t - CURVE_START_TEMP))
            (CURVE_END_TEMP - CURVE_START_TEMP)))) := by
  constructor
  · unfold fan_curve
    dsimp only
    repeat' split
    all_goals omega
  · intro k1 k2 k3 k4
    norm_num [CURVE_START_TEMP, CURVE_END_LEVEL, CURVE_START_LEVEL, MAX_RATE] at k1 k2 k3 k4
    unfold fan_curve CURVE_START_TEMP CURVE_END_TEMP CURVE_START_LEVEL CURVE_END_LEVEL MAX_RATE
    norm_num
    rw [wrap32_id (t - 35000) (by omega) (by omega)]
    rw [wrap32_id (85 * (t - 35000)) (by omega) (by omega)]
    obtain ⟨hq1, hq2⟩ := tdiv_30000_i32 (85 * (t - 35000)) (by omega) (by omega)
    rw [wrap32_id (15 + Int.tdiv (85 * (t - 35000)) 30000) (by omega) (by omega)]
    repeat' split
    all_goals omega

/-- Witness for the amended C8: an extrapolated but non-overflowing input
saturates at 255, and the in-band bound holds there. -/
theorem fan_curve_amended_witness :
    fan_curve 200000 ≤ 255 ∧
    (fan_curve 200000 : ℤ) =
      max 0 (min 255 ((CURVE_START_LEVEL : ℤ) +
        Int.tdiv (((CURVE_END_LEVEL - CURVE_START_LEVEL : ℕ) : ℤ) * ((200000 : ℤ) - CURVE_START_TEMP))
          (CURVE_END_TEMP - CURVE_START_TEMP))) :=
  ⟨(fan_curve_amended 200000).1,
   (fan_curve_amended 200000).2 (by decide) (by decide) (by decide) (by decide)⟩

/-- **C3**: on a tick where the (post-push) history is full and the
lockout counter is zero, a reset is requested iff condition A (minimum
duty over the history strictly above 80 and maximum observed RPM below
10 000) or condition B (maximum duty below 50 and minimum observed RPM
above 10 000) holds on the substituted speeds; a reset sets the lockout
to 15, which the tick's closing saturating decrement brings to 14; while
the lockout is nonzero no reset is requested regardless of readings; and
every tick without a reset decrements the counter by one, saturating at
zero. -/
theorem anomaly_reset_iff (s : ControlState) (temp? : Option ℤ) (speeds? : Option (List ℕ)) :
    (s.lockout = 0 → (tick s temp? speeds?).1.history.full = true →
      (((tick s temp? speeds?).2.reset = true) ↔
        ((80 < (tick s temp? speeds?).1.history.ratesList.min?.getD 0 ∧
            (speeds?.getD (List.replicate 8 0)).max?.getD 0 < 10000) ∨
          ((tick s temp? speeds?).1.history.ratesList.max?.getD 0 < 50 ∧
            10000 < (speeds?.getD (List.replicate 8 0)).min?.getD 0))) ∧
      ((tick s temp? speeds?).2.reset = true → (tick s temp? speeds?).1.lockout = 15 - 1)) ∧
    (s.lockout ≠ 0 → (tick s temp? speeds?).2.reset = false) ∧
    ((tick s temp? speeds?).2.reset = false →
      (tick s temp? speeds?).1.lockout = s.lockout - 1) := by
  refine ⟨fun h0 hfull => ⟨?_, fun hr => ?_⟩, fun hne => ?_, fun hr => ?_⟩
  · rw [tick_reset, hfull, h0]
    simp [anomalyTrigger_iff]
  · rw [tick_lockout, if_pos hr]
  · rw [tick_reset]
    simp [beq_iff_eq, hne]
  · rw [tick_lockout, if_neg (by simp [hr])]

/-- Witness for C3: a full history of duty 90 with all-zero observed RPM
triggers a reset and leaves the lockout at 14; with a nonzero lockout the
same readings trigger nothing. -/
theorem anomaly_reset_iff_witness :
    (tick ⟨pushAll RateHistory.empty [90, 90, 90, 90, 90], 0⟩ none
      (some (List.replicate 8 0))).2.reset = true ∧
    (tick ⟨pushAll RateHistory.empty [90, 90, 90, 90, 90], 0⟩ none
      (some (List.replicate 8 0))).1.lockout = 15 - 1 ∧
    (tick ⟨pushAll RateHistory.empty [90, 90, 90, 90, 90], 14⟩ none
      (some (List.replicate 8 0))).2.reset = false := by
  have h1 := (anomaly_reset_iff ⟨pushAll RateHistory.empty [90, 90, 90, 90, 90], 0⟩ none
    (some (List.replicate 8 0))).1 rfl (by decide)
  have h2 := (anomaly_reset_iff ⟨pushAll RateHistory.empty [90, 90, 90, 90, 90], 14⟩ none
    (some (List.replicate 8 0))).2.1 (by decide)
  exact ⟨h1.1.mpr (by decide), h1.2 (h1.1.mpr (by decide)), h2⟩

/-- **C9**: when the RPM read fails during anomaly evaluation all eight
observed speeds are substituted as zero; condition B's minimum-RPM test
(`> 10 000`) is then false, so B can never hold, and condition A's RPM
side (`max < 10 000`) is trivially satisfied, so a reset fires exactly
when A's duty-history condition (minimum duty `> 80`) holds on its own —
the substitution does not trigger A without it. -/
theorem rpm_failure_safe (s : ControlState) (temp? : Option ℤ)
    (h0 : s.lockout = 0) (hfull : (tick s temp? none).1.history.full = true) :
    ((tick s temp? none).2.reset = true ↔
      80 < (tick s temp? none).1.history.ratesList.min?.getD 0) ∧
    ((List.replicate 8 0 : List ℕ).max?.getD 0 < 10000) ∧
    ¬(10000 < (List.replicate 8 0 : List ℕ).min?.getD 0) := by
  have hmax : ((List.replicate 8 0 : List ℕ).max?.getD 0) = 0 := by decide
  have hmin : ((List.replicate 8 0 : List ℕ).min?.getD 0) = 0 := by decide
  refine ⟨?_, by decide, by decide⟩
  rw [tick_reset, hfull, h0]
  simp [anomalyTrigger_iff, hmax, hmin]

/-- Witness for C9: full history of duty 90, failed RPM read, reset fires
from condition A's duty side alone. -/
theorem rpm_failure_safe_witness :
    (tick ⟨pushAll RateHistory.empty [90, 90, 90, 90, 90], 0⟩ none none).2.reset = true := by
  have h := rpm_failure_safe ⟨pushAll RateHistory.empty [90, 90, 90, 90, 90], 0⟩ none
    rfl (by decide)
  exact h.1.mpr (by decide)

end IpmiFans
